import Mathlib

/-!
Verification of the quota-and-distribution engine of the WhatsApp lead
automation repository.

The Python sources are shallowly embedded: dictionaries become ordered
association lists (Python dicts preserve insertion order and have unique
keys), calendar dates become integers (ISO date strings compare
lexicographically exactly as the corresponding day numbers compare),
calls into external collaborators (Selenium, the WATI REST client,
random.choice, time parsing) become explicit parameters describing the
outcome of the call, and the campaign loops become structural recursions
over the lead list that additionally record a trace of the observable
events (counsellor picks, send attempts, quota increments, delays).
-/

namespace LeadAuto

/-- Delivery status of one message, from the MessageStatus enum of
lead_automation_selenium_whatsapp.py. -/
inductive MessageStatus where
  | sent
  | delivered
  | read
  | failed
  | pending
deriving DecidableEq

/-- Error categories, from the ErrorCategory enum of
lead_automation_selenium_whatsapp.py. -/
inductive ErrorCategory where
  | invalid_number
  | not_on_whatsapp
  | browser_error
  | session_expired
  | whatsapp_web_error
  | network_error
  | element_not_found
  | unknown_error
deriving DecidableEq

/-- Structured result of a send operation, from the MessageResult
NamedTuple of lead_automation_selenium_whatsapp.py.  Message ids are kept
abstract as an optional string. -/
structure MessageResult where
  success : Bool
  status : MessageStatus
  message_id : Option String
  error_category : Option ErrorCategory
  error_message : Option String
  should_continue : Bool
deriving DecidableEq

/-- A lead as seen by the per-lead processing code: only its external
identifier matters to the scheduling logic. -/
structure Lead where
  lead_id : String
deriving DecidableEq

-- ============================================================================
-- C10: SeleniumWhatsAppClient.send_template_message
-- ============================================================================

/-- Environment describing the outcome of every external interaction
inside SeleniumWhatsAppClient.send_template_message: navigation to the
chat, the input-box search with its page diagnosis, the media path, the
two text-send methods, the detected sent status and the possibility of an
exception escaping the body. -/
structure SendEnv where
  outerExceptionRaised : Bool
  navigateOk : Bool
  inputBoxFound : Bool
  pageSaysInvalidNumber : Bool
  pageSaysNotOnWhatsApp : Bool
  mediaSent : Bool
  textSendExceptionRaised : Bool
  clipboardMethodOk : Bool
  typingMethodOk : Bool
  detectedStatus : MessageStatus
  generatedId : String

/-- Shallow embedding of SeleniumWhatsAppClient.send_template_message
(lead_automation_selenium_whatsapp.py, lines 1417-1611).  Each return
site of the Python function is reproduced with its literal field
values. -/
def sendTemplateMessage (env : SendEnv) (phone : String) : MessageResult :=
  if env.outerExceptionRaised then
    { success := false, status := .failed, message_id := none,
      error_category := some .unknown_error,
      error_message := some ("Exception during send"), should_continue := true }
  else if !env.navigateOk then
    { success := false, status := .failed, message_id := none,
      error_category := some .invalid_number,
      error_message := some ("Invalid/unregistered WhatsApp number: " ++ phone),
      should_continue := true }
  else if !env.inputBoxFound then
    if env.pageSaysInvalidNumber then
      { success := false, status := .failed, message_id := none,
        error_category := some .invalid_number,
        error_message := some ("Invalid WhatsApp number: " ++ phone),
        should_continue := true }
    else if env.pageSaysNotOnWhatsApp then
      { success := false, status := .failed, message_id := none,
        error_category := some .not_on_whatsapp,
        error_message := some ("Number not on WhatsApp: " ++ phone),
        should_continue := true }
    else
      { success := false, status := .failed, message_id := none,
        error_category := some .element_not_found,
        error_message := some ("Could not find message input box after multiple attempts"),
        should_continue := true }
  else if env.mediaSent then
    { success := true, status := env.detectedStatus,
      message_id := some env.generatedId, error_category := none,
      error_message := none, should_continue := true }
  else if env.textSendExceptionRaised then
    { success := false, status := .failed, message_id := none,
      error_category := some .whatsapp_web_error,
      error_message := some ("Send error"), should_continue := true }
  else if !(env.clipboardMethodOk || env.typingMethodOk) then
    { success := false, status := .failed, message_id := none,
      error_category := some .whatsapp_web_error,
      error_message := some ("Failed to send message with all methods"),
      should_continue := true }
  else
    { success := true, status := env.detectedStatus,
      message_id := some env.generatedId, error_category := none,
      error_message := none, should_continue := true }

-- ============================================================================
-- C9: working-hours gates of the three variants
-- ============================================================================

/-- Working-hours gate of the single-browser Selenium variant
(EnhancedLeadAutomation.is_working_hours,
lead_automation_selenium_whatsapp.py lines 1875-1883).  The outcome of
strptime on the configured start and end strings is passed in as an
Option (none models a raised parse exception); times are minutes since
midnight.  On any exception the function returns True. -/
def seleniumIsWorkingHours (start? end? : Option Nat) (current : Nat) : Bool :=
  match start?, end? with
  | some s, some e => decide (s ≤ current) && decide (current ≤ e)
  | _, _ => true

/-- Working-hours gate of the optimized WATI variant
(EnhancedLeadAutomation.is_working_hours,
lead_automation_wati_optimized.py lines 490-498).  On any exception it
returns True. -/
def optimizedIsWorkingHours (start? end? : Option Nat) (current : Nat) : Bool :=
  match start?, end? with
  | some s, some e => decide (s ≤ current) && decide (current ≤ e)
  | _, _ => true

/-- Working-hours gate of the plain WATI variant
(LeadAutomationManager.is_within_working_hours,
lead_automation_wati.py lines 292-302).  On any exception it returns
False. -/
def watiIsWithinWorkingHours (start? end? : Option Nat) (current : Nat) : Bool :=
  match start?, end? with
  | some s, some e => decide (s ≤ current) && decide (current ≤ e)
  | _, _ => false

/-- First gate of LeadAutomationManager.run_automation
(lead_automation_wati.py lines 652-660): when the working-hours gate is
false the run returns at once with this status string. -/
def watiRunAutomationGateStatus (start? end? : Option Nat) (current : Nat) : String :=
  if !watiIsWithinWorkingHours start? end? current then ("outside_working_hours")
  else ("proceed")

-- ============================================================================
-- Association-list helpers for Python dictionaries
-- ============================================================================

/-- Python dict.get(key, 0) on a dictionary embedded as an ordered
association list (Python dict keys are unique, so first match is the
match). -/
def assocGetNat (q : List (String × Nat)) (n : String) : Nat :=
  match q with
  | [] => 0
  | p :: rest => if p.1 = n then p.2 else assocGetNat rest n

/-- Python dict lookup with default empty list, for the distribution
dictionaries of LeadDistributor. -/
def distGetFirst (dist : List (String × List Lead)) (t : String) : List Lead :=
  match dist with
  | [] => []
  | p :: rest => if p.1 = t then p.2 else distGetFirst rest t

/-- Python distribution[team_id].append(lead): appends to the (unique)
entry of the given team. -/
def distAppendFirst (dist : List (String × List Lead)) (t : String) (l : Lead) :
    List (String × List Lead) :=
  match dist with
  | [] => []
  | p :: rest =>
    if p.1 = t then (p.1, p.2 ++ [l]) :: rest else p :: distAppendFirst rest t l

-- ============================================================================
-- C5 / C6 / C8: LeadDistributor
-- ============================================================================

/-- One entry of a distribution under construction: team id, the team
capacity from the capacities dictionary, and the leads assigned so
far. -/
abbrev DistEntry := String × Nat × List Lead

/-- Result of the Python expression int(len(leads) * (capacity /
total_capacity)) in _capacity_based_distribution, as a function of
(number of leads, capacity, total capacity).  Python evaluates it in
float arithmetic, which can round one below or (never, for these
magnitudes, above) the exact floor; the embedding therefore keeps the
count function abstract and the theorems assume only that it never
exceeds the capacity when the lead count is at most the total capacity,
which the float computation satisfies.  pyIntCount below is the exact
floor instance used to run the definitions. -/
abbrev CountFun := Nat → Nat → Nat → Nat

/-- Exact floor instance of the stage-1 count. -/
def pyIntCount : CountFun := fun len cap total => len * cap / total

/-- Proportional stage of LeadDistributor._capacity_based_distribution
(lead_automation_selenium_whatsapp.py lines 417-427): each team with
positive capacity receives a contiguous slice of flt (len leads)
capacity total leads, clipped at the end of the lead list.  Returns the
per-team entries and the final lead index. -/
def capacityStage1 (flt : CountFun) (leads : List Lead) (total : Nat) :
    List (String × Nat) → Nat → List DistEntry × Nat
  | [], idx => ([], idx)
  | (t, cap) :: rest, idx =>
    if 0 < cap then
      let lft := flt leads.length cap total
      let endIdx := min (idx + lft) leads.length
      let r := capacityStage1 flt leads total rest endIdx
      ((t, cap, (leads.drop idx).take (endIdx - idx)) :: r.1, r.2)
    else
      let r := capacityStage1 flt leads total rest idx
      ((t, cap, []) :: r.1, r.2)

/-- One iteration of the inner for-loop of the remainder stage of
_capacity_based_distribution (lines 430-434): walk the teams in
dictionary order and give one more lead to every team that still has
spare capacity while leads remain. -/
def fillPass (leads : List Lead) : List DistEntry → Nat → List DistEntry × Nat
  | [], idx => ([], idx)
  | (t, cap, asg) :: rest, idx =>
    if asg.length < cap ∧ idx < leads.length then
      let r := fillPass leads rest (idx + 1)
      ((t, cap, asg ++ (leads.drop idx).take 1) :: r.1, r.2)
    else
      let r := fillPass leads rest idx
      ((t, cap, asg) :: r.1, r.2)

/-- The while-loop of the remainder stage (line 430): repeat fillPass
until every lead is placed.  The Python loop has no fuel; the embedding
carries fuel and the theorems show that leads.length passes always
complete the distribution for the inputs reachable from
distribute_leads. -/
def fillLoop (leads : List Lead) : Nat → List DistEntry → Nat → List DistEntry × Nat
  | 0, dist, idx => (dist, idx)
  | fuel + 1, dist, idx =>
    if idx < leads.length then
      let r := fillPass leads dist idx
      fillLoop leads fuel r.1 r.2
    else (dist, idx)

/-- LeadDistributor._capacity_based_distribution
(lead_automation_selenium_whatsapp.py lines 406-436). -/
def capacityBasedDistribution (flt : CountFun) (leads : List Lead)
    (caps : List (String × Nat)) : List (String × List Lead) :=
  if leads.isEmpty then caps.map (fun p => (p.1, ([] : List Lead)))
  else
    let total := (caps.map Prod.snd).sum
    if total = 0 then caps.map (fun p => (p.1, ([] : List Lead)))
    else
      let s1 := capacityStage1 flt leads total caps 0
      let s2 := fillLoop leads leads.length s1.1 s1.2
      s2.1.map (fun e => (e.1, e.2.2))

/-- Loop body of LeadDistributor._round_robin_distribution
(lead_automation_selenium_whatsapp.py lines 446-451): lead number ti is
offered to available_teams[ti % len(available_teams)]; if that team has
already reached its capacity the lead is dropped and the index still
advances. -/
def roundRobinGo (caps : List (String × Nat)) (avail : List String) :
    List Lead → Nat → List (String × List Lead) → List (String × List Lead)
  | [], _, dist => dist
  | l :: rest, ti, dist =>
    let t := avail.getD (ti % avail.length) ("")
    let dist2 :=
      if (distGetFirst dist t).length < assocGetNat caps t
      then distAppendFirst dist t l else dist
    roundRobinGo caps avail rest (ti + 1) dist2

/-- LeadDistributor._round_robin_distribution (lines 438-453). -/
def roundRobinDistribution (leads : List Lead) (caps : List (String × Nat)) :
    List (String × List Lead) :=
  let dist0 := caps.map (fun p => (p.1, ([] : List Lead)))
  let avail := (caps.filter (fun p => 0 < p.2)).map Prod.fst
  if avail.isEmpty then dist0
  else roundRobinGo caps avail leads 0 dist0

/-- Body of LeadDistributor._balanced_distribution (lines 455-475):
teams with positive capacity receive leads.length / n leads each plus
one extra for the first leads.length % n of them, capped at their
capacity, as contiguous slices. -/
def balancedGo (leads : List Lead) (per rem : Nat) :
    List (String × Nat) → Nat → Nat → List (String × List Lead)
  | [], _, _ => []
  | (t, cap) :: rest, i, idx =>
    if 0 < cap then
      let cnt := min (per + (if i < rem then 1 else 0)) cap
      (t, (leads.drop idx).take cnt) :: balancedGo leads per rem rest (i + 1) (idx + cnt)
    else
      (t, ([] : List Lead)) :: balancedGo leads per rem rest i idx

/-- LeadDistributor._balanced_distribution (lines 455-475). -/
def balancedDistribution (leads : List Lead) (caps : List (String × Nat)) :
    List (String × List Lead) :=
  let avail := caps.filter (fun p => 0 < p.2)
  if avail.isEmpty then caps.map (fun p => (p.1, ([] : List Lead)))
  else balancedGo leads (leads.length / avail.length) (leads.length % avail.length) caps 0 0

/-- The configured LEAD_DISTRIBUTION_STRATEGY value. -/
inductive DistributionStrategy where
  | capacity_based
  | round_robin
  | balanced

/-- Per-team remaining capacity max(0, capacity - used), as computed at
the top of LeadDistributor.distribute_leads (Nat subtraction truncates
at 0 exactly like the Python max). -/
def availCaps (teams : List (String × Nat)) (used : String → Nat) :
    List (String × Nat) :=
  teams.map (fun p => (p.1, p.2 - used p.1))

/-- Total remaining capacity across all teams. -/
def totalAvail (teams : List (String × Nat)) (used : String → Nat) : Nat :=
  ((availCaps teams used).map Prod.snd).sum

/-- LeadDistributor.distribute_leads
(lead_automation_selenium_whatsapp.py lines 377-404): compute the
remaining capacity of every team, return the empty dictionary when the
total is zero, otherwise truncate the lead list to the total available
capacity and dispatch on the configured strategy (capacity_based is the
default). -/
def distributeLeads (flt : CountFun) (strategy : DistributionStrategy)
    (teams : List (String × Nat)) (used : String → Nat) (leads : List Lead) :
    List (String × List Lead) :=
  let caps := availCaps teams used
  let total := totalAvail teams used
  if total = 0 then []
  else
    let toDistribute := leads.take total
    match strategy with
    | .capacity_based => capacityBasedDistribution flt toDistribute caps
    | .round_robin => roundRobinDistribution toDistribute caps
    | .balanced => balancedDistribution toDistribute caps

-- ============================================================================
-- C7: 7-day retention of the persisted quota table
-- ============================================================================

/-- Python all_data[today] = record on the day-keyed JSON table: replace
the entry for the day if present, otherwise append it.  Days are
integers; ISO date strings compare lexicographically exactly as their
day numbers compare. -/
def assocSetDay (table : List (Int × Nat)) (d : Int) (v : Nat) : List (Int × Nat) :=
  match table with
  | [] => [(d, v)]
  | p :: rest => if p.1 = d then (d, v) :: rest else p :: assocSetDay rest d v

/-- LeadAutomationManager._save_daily_quota (lead_automation_wati.py
lines 225-248) and GlobalQuotaManager._save_quota_data
(lead_automation_selenium_whatsapp.py lines 500-524): write the record
under today, then keep exactly the keys k with k at least today minus 7
(the cutoff string is strftime of now minus timedelta(days=7) and the
filter keeps k >= cutoff). -/
def saveDailyQuota (table : List (Int × Nat)) (today : Int) (v : Nat) : List (Int × Nat) :=
  (assocSetDay table today v).filter (fun p => today - 7 ≤ p.1)

/-- Run one save per day over a list of days, starting from a given
persisted table. -/
def saveOnDays (table : List (Int × Nat)) (days : List Int) : List (Int × Nat) :=
  days.foldl (fun t d => saveDailyQuota t d 0) table

/-- Ten consecutive calendar days starting at d0. -/
def days10 (d0 : Int) : List Int :=
  (List.range 10).map (fun k => d0 + k)

/-- Shift every day key of a table by a constant; used to transport the
retention computation from concrete days to arbitrary start days. -/
def shiftTable (c : Int) (t : List (Int × Nat)) : List (Int × Nat) :=
  t.map (fun p => (p.1 + c, p.2))

-- ============================================================================
-- C1 / C3 / C4: the per-lead loop of EnhancedLeadAutomation.run_campaign
-- ============================================================================

/-- One counsellor of ALL_COUNSELLORS: its name and daily_limit. -/
structure Counsellor where
  name : String
  daily_limit : Nat
deriving DecidableEq

/-- Mutable per-day tracking state of EnhancedLeadAutomation: the
per-counsellor used counts (the counsellor keys of the daily_quota
dictionary), the global_total key of the same dictionary, and the
sent_today set of lead ids. -/
structure CampaignState where
  quota : List (String × Nat)
  globalUsed : Nat
  sentToday : List String
deriving DecidableEq

/-- daily_quota[name] = daily_quota.get(name, 0) + 1, as done in
process_single_lead (lead_automation_selenium_whatsapp.py line 2037). -/
def quotaInc (q : List (String × Nat)) (n : String) : List (String × Nat) :=
  match q with
  | [] => [(n, 1)]
  | p :: rest => if p.1 = n then (p.1, p.2 + 1) :: rest else p :: quotaInc rest n

/-- EnhancedLeadAutomation.get_available_counsellor
(lead_automation_selenium_whatsapp.py lines 1958-1972): the counsellors
whose used count is strictly below their daily limit; random.choice then
picks some element of this list. -/
def getAvailableCounsellors (cs : List Counsellor) (q : List (String × Nat)) :
    List Counsellor :=
  cs.filter (fun c => assocGetNat q c.name < c.daily_limit)

/-- Observable outcome of one run of the per-lead loop: final state, the
processed counter, and the trace of counsellor picks (name, used count
at pick time, daily limit), send attempts (1-based lead position, global
used count at the attempt), post-increment state snapshots, and the
positions after which the inter-message jitter delay ran. -/
structure RunResult where
  finalState : CampaignState
  processed : Nat
  picks : List (String × Nat × Nat)
  attempts : List (Nat × Nat)
  snapshots : List CampaignState
  delays : List Nat
deriving DecidableEq

/-- A run that stops at once in the given state, producing no events. -/
def noEvents (s : CampaignState) : RunResult :=
  ⟨s, 0, [], [], [], []⟩

/-- The per-lead loop of EnhancedLeadAutomation.run_campaign
(lead_automation_selenium_whatsapp.py lines 2108-2163) with the body of
process_single_lead (lines 1974-2045) inlined.  G is
GLOBAL_DAILY_LIMIT, cs is ALL_COUNSELLORS, gateway gives the
MessageResult that the Selenium client returns for the lead at each
1-based position, sel resolves random.choice by giving an index into the
available list, total is len(leads) of the whole fetched batch and i the
position of the first lead of the remaining suffix.  In loop order: stop
when the global limit is reached; stop when no counsellor is available;
pick a counsellor; a lead already in sent_today yields a failed result
with should_continue true and no counter changes; otherwise the send is
attempted, and on success the counsellor counter and global_total are
incremented together and the lead id is recorded in sent_today; a result
with should_continue false stops the loop before the processed counter
is incremented; otherwise processed increments and, unless the lead is
the last of the batch, the jitter delay runs. -/
def runLeads (G : Nat) (cs : List Counsellor) (gateway : Nat → MessageResult)
    (sel : Nat → Nat) (total : Nat) :
    List Lead → Nat → CampaignState → RunResult
  | [], _, s => noEvents s
  | lead :: rest, i, s =>
    if G ≤ s.globalUsed then noEvents s
    else
      match getAvailableCounsellors cs s.quota with
      | [] => noEvents s
      | a :: as =>
        let c := (a :: as).get ⟨sel i % (as.length + 1), Nat.mod_lt _ (Nat.succ_pos _)⟩
        let pick := (c.name, assocGetNat s.quota c.name, c.daily_limit)
        if lead.lead_id ∈ s.sentToday then
          let r := runLeads G cs gateway sel total rest (i + 1) s
          { r with processed := r.processed + 1,
                   picks := pick :: r.picks,
                   delays := if i < total then i :: r.delays else r.delays }
        else
          let res := gateway i
          let s2 := if res.success then
              { quota := quotaInc s.quota c.name,
                globalUsed := s.globalUsed + 1,
                sentToday := s.sentToday ++ [lead.lead_id] }
            else s
          let snaps := if res.success then [s2] else []
          if res.should_continue then
            let r := runLeads G cs gateway sel total rest (i + 1) s2
            { r with processed := r.processed + 1,
                     picks := pick :: r.picks,
                     attempts := (i, s.globalUsed) :: r.attempts,
                     snapshots := snaps ++ r.snapshots,
                     delays := if i < total then i :: r.delays else r.delays }
          else
            { finalState := s2, processed := 0, picks := [pick],
              attempts := [(i, s.globalUsed)], snapshots := snaps, delays := [] }

/-- Quota invariant of claim C1: every counsellor is within its daily
limit and the global counter is within the global daily limit. -/
abbrev csInv (G : Nat) (cs : List Counsellor) (s : CampaignState) : Prop :=
  (∀ c ∈ cs, assocGetNat s.quota c.name ≤ c.daily_limit) ∧ s.globalUsed ≤ G

-- ============================================================================
-- C2: the multi-team secured pipeline
-- ============================================================================

/-- One phone team of the multi-team variant: id, phone and the
counsellor roster (name to number). -/
structure TeamConfig where
  team_id : String
  phone : String
  counsellors : List (String × String)
deriving DecidableEq

/-- Day-scoped state of GlobalQuotaManager.quota_data: the global total
and the per-team counters. -/
structure QuotaData where
  global_total : Nat
  teams : List (String × Nat)
deriving DecidableEq

/-- GlobalQuotaManager.increment_quota
(lead_automation_selenium_whatsapp.py lines 534-541). -/
def incrementQuota (qd : QuotaData) (team : String) : QuotaData :=
  { global_total := qd.global_total + 1, teams := quotaInc qd.teams team }

/-- MultiTeamAutomation._get_team_counsellor (lines 2632-2645): a random
counsellor of the team, without any quota check; none when the team is
unknown or has no counsellors. -/
def getTeamCounsellor (cfg : Option TeamConfig) (sel : Nat) :
    Option (String × String) :=
  match cfg with
  | none => none
  | some cfg =>
    match cfg.counsellors with
    | [] => none
    | c :: cs => some ((c :: cs).get ⟨sel % (cs.length + 1), Nat.mod_lt _ (Nat.succ_pos _)⟩)

/-- The systemic-failure result the security checks of
_process_single_lead_for_team_secured return. -/
def securityFailure (msg : String) : MessageResult :=
  { success := false, status := .failed, message_id := none,
    error_category := some .unknown_error, error_message := some msg,
    should_continue := false }

/-- MultiTeamAutomation._process_single_lead_for_team_secured
(lead_automation_selenium_whatsapp.py lines 2647-2733): three security
checks, then the send through the team browser and the log call.  The
function neither consults nor updates any sent-today set. -/
def processSingleLeadForTeamSecured (teamCfg : Option TeamConfig)
    (counsellorName : String) (clientTeamId teamId : String)
    (gatewayResult : MessageResult) : MessageResult :=
  match teamCfg with
  | none => securityFailure ("Invalid team configuration")
  | some cfg =>
    if counsellorName ∈ cfg.counsellors.map Prod.fst then
      if clientTeamId = teamId then gatewayResult
      else securityFailure ("Client-team mismatch")
    else securityFailure ("Counsellor-team mismatch")

/-- Outcome of one run of the per-team loop: quota data afterwards, the
processed and error counters, and the lead ids of the successful
sends. -/
structure TeamRunResult where
  quota : QuotaData
  processed : Nat
  errors : Nat
  sentLeadIds : List String
deriving DecidableEq

/-- The per-lead loop of MultiTeamAutomation._process_single_team_secured
(lead_automation_selenium_whatsapp.py lines 2546-2626): pick a random
counsellor of the team (break when there is none), skip the lead with an
error when the browser session belongs to another team, otherwise call
_process_single_lead_for_team_secured; on success increment the team and
global quota and the processed counter.  No sent-today set is read or
written anywhere in this loop. -/
def processTeamLeads (cfg : TeamConfig) (clientTeamId : String)
    (gateway : Nat → MessageResult) (sel : Nat → Nat) :
    List Lead → Nat → QuotaData → TeamRunResult
  | [], _, qd => ⟨qd, 0, 0, []⟩
  | lead :: rest, i, qd =>
    match getTeamCounsellor (some cfg) (sel i) with
    | none => ⟨qd, 0, 0, []⟩
    | some c =>
      if clientTeamId ≠ cfg.team_id then
        let r := processTeamLeads cfg clientTeamId gateway sel rest (i + 1) qd
        { r with errors := r.errors + 1 }
      else
        let res := processSingleLeadForTeamSecured (some cfg) c.1 clientTeamId
            cfg.team_id (gateway i)
        if res.success then
          let r := processTeamLeads cfg clientTeamId gateway sel rest (i + 1)
              (incrementQuota qd cfg.team_id)
          { r with processed := r.processed + 1,
                   sentLeadIds := lead.lead_id :: r.sentLeadIds }
        else
          let r := processTeamLeads cfg clientTeamId gateway sel rest (i + 1) qd
          { r with errors := r.errors + 1 }

/-- Two invocations of the multi-team per-team pipeline on the same
calendar day with the same lead list: the persisted quota data carries
over between the runs, and the lead ids of all successful sends of both
runs are returned.  There is no dedup state to carry over because the
pipeline keeps none. -/
def processTeamLeadsTwice (cfg : TeamConfig) (gateway : Nat → MessageResult)
    (sel : Nat → Nat) (leads : List Lead) (qd : QuotaData) : List String :=
  let r1 := processTeamLeads cfg cfg.team_id gateway sel leads 1 qd
  let r2 := processTeamLeads cfg cfg.team_id gateway sel leads 1 r1.quota
  r1.sentLeadIds ++ r2.sentLeadIds

/-- Concrete team fixture for the double-send evaluation. -/
def demoTeam : TeamConfig :=
  ⟨("team_1"), ("+911111111111"), [(("C1"), ("+922222222222"))]⟩

/-- A gateway whose sends always succeed. -/
def demoOkGateway : Nat → MessageResult :=
  fun _ =>
    { success := true, status := .sent, message_id := some ("sel_1"),
      error_category := none, error_message := none, should_continue := true }

/-- A batch of 10 distinct leads for the circuit-breaker scenario. -/
def demoLeads10 : List Lead :=
  [⟨"L1"⟩, ⟨"L2"⟩, ⟨"L3"⟩, ⟨"L4"⟩, ⟨"L5"⟩,
   ⟨"L6"⟩, ⟨"L7"⟩, ⟨"L8"⟩, ⟨"L9"⟩, ⟨"L10"⟩]

/-- A gateway that fails systemically on the third lead: positions 1 and
2 succeed, position 3 returns a result with should_continue false. -/
def demoBreakerGateway : Nat → MessageResult :=
  fun i =>
    if i = 3 then
      { success := false, status := .failed, message_id := none,
        error_category := some .whatsapp_web_error,
        error_message := some ("systemic failure"), should_continue := false }
    else demoOkGateway i

-- ============================================================================
-- Invariants used by the distributor proofs
-- ============================================================================

/-- The (team, capacity) skeleton of a distribution under
construction. -/
def capsOf (d : List DistEntry) : List (String × Nat) :=
  d.map (fun e => (e.1, e.2.1))

/-- Total number of leads assigned so far. -/
def distSum (d : List DistEntry) : Nat :=
  (d.map (fun e => e.2.2.length)).sum

/-- Total capacity of the entries. -/
def capSum (d : List DistEntry) : Nat :=
  (d.map (fun e => e.2.1)).sum

/-- Every entry stays within its capacity. -/
def distOk (d : List DistEntry) : Prop :=
  ∀ e ∈ d, e.2.2.length ≤ e.2.1

end LeadAuto

namespace LeadAuto

/-- Claim C10: every MessageResult returned by the browser-automation
send operation has should_continue = true, on the success path and on
every failure branch, so no Selenium delivery outcome can signal a
systemic failure. -/
theorem sendTemplateMessage_always_continues (env : SendEnv) (phone : String) :
    (sendTemplateMessage env phone).should_continue = true := by
  unfold sendTemplateMessage
  repeat' split
  all_goals rfl

/-- Claim C9, counterexample: in the plain WATI variant a failed parse of
the start time (with the window configured as up to 18:00 and the clock
at 12:00) makes the gate report the time as outside working hours, and
run_automation terminates with outside_working_hours instead of
proceeding; the claim that every variant treats a parse failure as an
open window is therefore false. -/
theorem wati_gate_fails_closed_counterexample :
    watiIsWithinWorkingHours none (some 1080) 720 = false ∧
      watiRunAutomationGateStatus none (some 1080) 720 = ("outside_working_hours") := by
  constructor <;> rfl

/-- Claim C9, amended: if parsing the configured start or end time fails,
the Selenium variant and the optimized WATI variant treat the window as
always open (the gate returns true and the run proceeds), while the plain
WATI variant treats it as closed (the gate returns false and the run is
blocked with outside_working_hours). -/
theorem working_hours_parse_failure_behaviour (start? end? : Option Nat) (current : Nat)
    (h : start? = none ∨ end? = none) :
    seleniumIsWorkingHours start? end? current = true ∧
      optimizedIsWorkingHours start? end? current = true ∧
      watiIsWithinWorkingHours start? end? current = false := by
  rcases h with h | h
  · subst h
    cases end? <;>
      simp [seleniumIsWorkingHours, optimizedIsWorkingHours, watiIsWithinWorkingHours]
  · subst h
    cases start? <;>
      simp [seleniumIsWorkingHours, optimizedIsWorkingHours, watiIsWithinWorkingHours]

/-- Witness for the amended C9 theorem at a concrete input. -/
theorem working_hours_parse_failure_behaviour_witness :
    ((none : Option Nat) = none ∨ (some 1080 : Option Nat) = none) ∧
      (seleniumIsWorkingHours none (some 1080) 720 = true ∧
        optimizedIsWorkingHours none (some 1080) 720 = true ∧
        watiIsWithinWorkingHours none (some 1080) 720 = false) :=
  ⟨Or.inl rfl, working_hours_parse_failure_behaviour none (some 1080) 720 (Or.inl rfl)⟩

-- ============================================================================
-- Distributor lemmas
-- ============================================================================

theorem capSum_congr {d1 d2 : List DistEntry} (h : capsOf d1 = capsOf d2) :
    capSum d1 = capSum d2 := by
  have h1 : capSum d1 = ((capsOf d1).map Prod.snd).sum := by
    simp [capSum, capsOf, List.map_map]
    rfl
  have h2 : capSum d2 = ((capsOf d2).map Prod.snd).sum := by
    simp [capSum, capsOf, List.map_map]
    rfl
  rw [h1, h2, h]

theorem capacityStage1_spec (flt : CountFun) (leads : List Lead) (total : Nat)
    (hflt : ∀ cap, flt leads.length cap total ≤ cap) :
    ∀ (caps : List (String × Nat)) (idx : Nat), idx ≤ leads.length →
      capsOf (capacityStage1 flt leads total caps idx).1 = caps ∧
      idx ≤ (capacityStage1 flt leads total caps idx).2 ∧
      (capacityStage1 flt leads total caps idx).2 ≤ leads.length ∧
      distSum (capacityStage1 flt leads total caps idx).1 + idx
        = (capacityStage1 flt leads total caps idx).2 ∧
      distOk (capacityStage1 flt leads total caps idx).1 := by
  intro caps
  induction caps with
  | nil =>
    intro idx hidx
    simp only [capacityStage1]
    refine ⟨rfl, le_refl _, hidx, by simp [distSum], ?_⟩
    intro e he
    simp at he
  | cons hd tl ih =>
    intro idx hidx
    obtain ⟨t, cap⟩ := hd
    by_cases hc : 0 < cap
    · simp only [capacityStage1, if_pos hc]
      have hidx_end : idx ≤ min (idx + flt leads.length cap total) leads.length :=
        le_min (Nat.le_add_right _ _) hidx
      have hend_len : min (idx + flt leads.length cap total) leads.length ≤ leads.length :=
        min_le_right _ _
      obtain ⟨h1, h2, h3, h4, h5⟩ := ih (min (idx + flt leads.length cap total) leads.length) hend_len
      have hslice :
          ((leads.drop idx).take
            (min (idx + flt leads.length cap total) leads.length - idx)).length
          = min (idx + flt leads.length cap total) leads.length - idx := by
        simp [List.length_take, List.length_drop]
        omega
      refine ⟨?_, ?_, ?_, ?_, ?_⟩
      · simpa [capsOf] using h1
      · omega
      · exact h3
      · simp only [distSum, List.map_cons, List.sum_cons] at h4 ⊢
        rw [hslice]
        omega
      · intro e he
        rcases List.mem_cons.1 he with rfl | he2
        · have hlft : flt leads.length cap total ≤ cap := hflt cap
          simp only [hslice]
          omega
        · exact h5 e he2
    · simp only [capacityStage1, if_neg hc]
      obtain ⟨h1, h2, h3, h4, h5⟩ := ih idx hidx
      refine ⟨?_, h2, h3, ?_, ?_⟩
      · simpa [capsOf] using h1
      · simp only [distSum, List.map_cons, List.sum_cons] at h4 ⊢
        simpa using h4
      · intro e he
        rcases List.mem_cons.1 he with rfl | he2
        · simp
        · exact h5 e he2

theorem fillPass_spec (leads : List Lead) :
    ∀ (d : List DistEntry) (idx : Nat),
      capsOf (fillPass leads d idx).1 = capsOf d ∧
      idx ≤ (fillPass leads d idx).2 ∧
      (idx ≤ leads.length → (fillPass leads d idx).2 ≤ leads.length) ∧
      distSum (fillPass leads d idx).1 + idx = distSum d + (fillPass leads d idx).2 ∧
      (distOk d → distOk (fillPass leads d idx).1) := by
  intro d
  induction d with
  | nil =>
    intro idx
    simp [fillPass, capsOf, distSum, distOk]
  | cons hd tl ih =>
    intro idx
    obtain ⟨t, cap, asg⟩ := hd
    by_cases hg : asg.length < cap ∧ idx < leads.length
    · simp only [fillPass, if_pos hg]
      obtain ⟨h1, h2, h3, h4, h5⟩ := ih (idx + 1)
      have hone : ((leads.drop idx).take 1).length = 1 := by
        simp [List.length_take, List.length_drop]
        omega
      refine ⟨?_, by omega, ?_, ?_, ?_⟩
      · simpa [capsOf] using h1
      · intro hle
        exact h3 hg.2
      · simp only [distSum, List.map_cons, List.sum_cons, List.length_append, hone] at h4 ⊢
        omega
      · intro hok e he
        rcases List.mem_cons.1 he with rfl | he2
        · simp only [List.length_append, hone]
          omega
        · exact h5 (fun e2 he3 => hok e2 (List.mem_cons_of_mem _ he3)) e he2
    · simp only [fillPass, if_neg hg]
      obtain ⟨h1, h2, h3, h4, h5⟩ := ih idx
      refine ⟨?_, h2, h3, ?_, ?_⟩
      · simpa [capsOf] using h1
      · simp only [distSum, List.map_cons, List.sum_cons] at h4 ⊢
        omega
      · intro hok e he
        rcases List.mem_cons.1 he with rfl | he2
        · exact hok _ (List.mem_cons_self _ _)
        · exact h5 (fun e2 he3 => hok e2 (List.mem_cons_of_mem _ he3)) e he2

theorem fillPass_progress (leads : List Lead) :
    ∀ (d : List DistEntry) (idx : Nat), idx < leads.length → distSum d < capSum d →
      idx < (fillPass leads d idx).2 := by
  intro d
  induction d with
  | nil =>
    intro idx hidx hsum
    simp [distSum, capSum] at hsum
  | cons hd tl ih =>
    intro idx hidx hsum
    obtain ⟨t, cap, asg⟩ := hd
    by_cases hg : asg.length < cap ∧ idx < leads.length
    · simp only [fillPass, if_pos hg]
      have := (fillPass_spec leads tl (idx + 1)).2.1
      omega
    · simp only [fillPass, if_neg hg]
      have hcap : cap ≤ asg.length := by
        rcases Decidable.not_and_iff_or_not.1 hg with h | h
        · omega
        · omega
      simp only [distSum, capSum, List.map_cons, List.sum_cons] at hsum
      exact ih idx hidx (by
        simp only [distSum, capSum]
        omega)

theorem fillLoop_spec (leads : List Lead) :
    ∀ (fuel : Nat) (d : List DistEntry) (idx : Nat),
      distSum d = idx → idx ≤ leads.length → leads.length ≤ capSum d →
      leads.length - idx ≤ fuel → distOk d →
      (fillLoop leads fuel d idx).2 = leads.length ∧
      distSum (fillLoop leads fuel d idx).1 = leads.length ∧
      capsOf (fillLoop leads fuel d idx).1 = capsOf d ∧
      distOk (fillLoop leads fuel d idx).1 := by
  intro fuel
  induction fuel with
  | zero =>
    intro d idx hds hidx hcap hfuel hok
    have h : idx = leads.length := by omega
    exact ⟨h, by simpa [h] using hds, rfl, hok⟩
  | succ n ih =>
    intro d idx hds hidx hcap hfuel hok
    by_cases hlt : idx < leads.length
    · simp only [fillLoop, if_pos hlt]
      obtain ⟨p1, p2, p3, p4, p5⟩ := fillPass_spec leads d idx
      have hprog : idx < (fillPass leads d idx).2 :=
        fillPass_progress leads d idx hlt (by omega)
      have hcap2 : capSum (fillPass leads d idx).1 = capSum d := capSum_congr p1
      obtain ⟨q1, q2, q3, q4⟩ :=
        ih (fillPass leads d idx).1 (fillPass leads d idx).2
          (by omega) (p3 hidx) (by omega) (by omega) (p5 hok)
      exact ⟨q1, q2, by rw [q3, p1], q4⟩
    · have h : idx = leads.length := by omega
      have hfl : fillLoop leads (n + 1) d idx = (d, idx) := by
        simp [fillLoop, hlt]
      rw [hfl]
      exact ⟨h, by simpa [h] using hds, rfl, hok⟩

theorem capSum_eq_capsOf (d : List DistEntry) :
    capSum d = ((capsOf d).map Prod.snd).sum := by
  simp only [capSum, capsOf, List.map_map]
  rfl

theorem pyIntCount_le_cap :
    ∀ len cap total : Nat, len ≤ total → pyIntCount len cap total ≤ cap := by
  intro len cap total h
  unfold pyIntCount
  rcases Nat.eq_zero_or_pos total with h0 | h0
  · subst h0
    have : len = 0 := by omega
    simp [this]
  · calc len * cap / total ≤ total * cap / total :=
          Nat.div_le_div_right (Nat.mul_le_mul_right _ h)
    _ = cap := Nat.mul_div_cancel_left cap h0

theorem capsOf_names (d : List DistEntry) :
    (capsOf d).map Prod.fst = d.map (fun e => e.1) := by
  simp only [capsOf, List.map_map]
  rfl

theorem assoc_bound_aux :
    ∀ d : List DistEntry, (d.map (fun e => e.1)).Nodup → distOk d →
      ∀ e ∈ d, e.2.2.length ≤ assocGetNat (capsOf d) e.1 := by
  intro d
  induction d with
  | nil =>
    intro _ _ e he
    simp at he
  | cons a tl ih =>
    intro hnd hok e he
    have hnd2 : (tl.map (fun e => e.1)).Nodup := (List.nodup_cons.1 hnd).2
    have hnotin : a.1 ∉ tl.map (fun e => e.1) := (List.nodup_cons.1 hnd).1
    rcases List.mem_cons.1 he with rfl | he2
    · show e.2.2.length ≤ assocGetNat ((e.1, e.2.1) :: capsOf tl) e.1
      simp only [assocGetNat, if_pos rfl]
      exact hok e (List.mem_cons_self _ _)
    · have hne : a.1 ≠ e.1 := by
        intro hcontr
        exact hnotin (hcontr ▸ List.mem_map.2 ⟨e, he2, rfl⟩)
      show e.2.2.length ≤ assocGetNat ((a.1, a.2.1) :: capsOf tl) e.1
      simp only [assocGetNat, if_neg hne]
      exact ih hnd2 (fun e2 h2 => hok e2 (List.mem_cons_of_mem _ h2)) e he2

theorem capacityBasedDistribution_spec (flt : CountFun) (leads : List Lead)
    (caps : List (String × Nat))
    (hlen : leads.length ≤ (caps.map Prod.snd).sum)
    (hflt : ∀ len cap total : Nat, len ≤ total → flt len cap total ≤ cap)
    (hnd : (caps.map Prod.fst).Nodup) :
    (((capacityBasedDistribution flt leads caps).map (fun p => p.2.length)).sum
        = leads.length) ∧
    ∀ p ∈ capacityBasedDistribution flt leads caps,
      p.2.length ≤ assocGetNat caps p.1 := by
  by_cases he : leads = []
  · subst he
    have hr : capacityBasedDistribution flt [] caps
        = caps.map (fun p => (p.1, ([] : List Lead))) := rfl
    constructor
    · rw [hr, List.map_map]
      apply List.sum_eq_zero
      intro x hx
      obtain ⟨c, _, rfl⟩ := List.mem_map.1 hx
      rfl
    · intro p hp
      rw [hr] at hp
      obtain ⟨c, _, rfl⟩ := List.mem_map.1 hp
      simp
  · have hne : leads.isEmpty = false := by
      simpa [List.isEmpty_iff] using he
    by_cases h0 : (caps.map Prod.snd).sum = 0
    · exfalso
      have : leads.length = 0 := by omega
      exact he (List.length_eq_zero.1 this)
    · have hreduce : capacityBasedDistribution flt leads caps
          = ((fillLoop leads leads.length
              (capacityStage1 flt leads (caps.map Prod.snd).sum caps 0).1
              (capacityStage1 flt leads (caps.map Prod.snd).sum caps 0).2).1.map
            (fun e => (e.1, e.2.2))) := by
        simp [capacityBasedDistribution, hne, h0]
      obtain ⟨s1a, s1b, s1c, s1d, s1e⟩ :=
        capacityStage1_spec flt leads (caps.map Prod.snd).sum
          (fun cap => hflt leads.length cap (caps.map Prod.snd).sum hlen)
          caps 0 (Nat.zero_le _)
      have hcs : capSum (capacityStage1 flt leads (caps.map Prod.snd).sum caps 0).1
          = (caps.map Prod.snd).sum := by
        rw [capSum_eq_capsOf, s1a]
      obtain ⟨f1, f2, f3, f4⟩ :=
        fillLoop_spec leads leads.length
          (capacityStage1 flt leads (caps.map Prod.snd).sum caps 0).1
          (capacityStage1 flt leads (caps.map Prod.snd).sum caps 0).2
          (by omega) s1c (by omega) (by omega) s1e
      rw [hreduce]
      constructor
      · have : ((fillLoop leads leads.length
              (capacityStage1 flt leads (caps.map Prod.snd).sum caps 0).1
              (capacityStage1 flt leads (caps.map Prod.snd).sum caps 0).2).1.map
            (fun e => (e.1, e.2.2))).map (fun p => p.2.length)
            = (fillLoop leads leads.length
              (capacityStage1 flt leads (caps.map Prod.snd).sum caps 0).1
              (capacityStage1 flt leads (caps.map Prod.snd).sum caps 0).2).1.map
              (fun e => e.2.2.length) := by
          simp [List.map_map]
        rw [this]
        exact f2
      · intro p hp
        obtain ⟨e, hein, rfl⟩ := List.mem_map.1 hp
        have hnames : ((fillLoop leads leads.length
              (capacityStage1 flt leads (caps.map Prod.snd).sum caps 0).1
              (capacityStage1 flt leads (caps.map Prod.snd).sum caps 0).2).1.map
            (fun e => e.1)).Nodup := by
          rw [← capsOf_names, f3, s1a]
          exact hnd
        have := assoc_bound_aux _ hnames f4 e hein
        rw [f3, s1a] at this
        exact this

/-- Claim C5: for every ordered lead sequence and every per-team
remaining-capacity map, the capacity-proportional distribution
(distribute_leads with the default capacity_based strategy) returns
per-team lead lists whose total length equals
min(len(input_leads), sum(capacities)), and no team receives more leads
than its remaining capacity.  The stage-1 count function is any function
that never exceeds the capacity when the lead count is at most the total
capacity, which covers the float computation of the Python source as
well as exact floor division. -/
theorem distributeLeads_capacity_conservation (flt : CountFun)
    (teams : List (String × Nat)) (used : String → Nat) (leads : List Lead)
    (hnd : (teams.map Prod.fst).Nodup)
    (hflt : ∀ len cap total : Nat, len ≤ total → flt len cap total ≤ cap) :
    (((distributeLeads flt .capacity_based teams used leads).map
        (fun p => p.2.length)).sum = min leads.length (totalAvail teams used)) ∧
    ∀ p ∈ distributeLeads flt .capacity_based teams used leads,
      p.2.length ≤ assocGetNat (availCaps teams used) p.1 := by
  by_cases h0 : totalAvail teams used = 0
  · constructor
    · simp [distributeLeads, h0]
    · intro p hp
      simp [distributeLeads, h0] at hp
  · have hnd2 : ((availCaps teams used).map Prod.fst).Nodup := by
      have h2 : (availCaps teams used).map Prod.fst = teams.map Prod.fst := by
        simp [availCaps, List.map_map]
      rw [h2]
      exact hnd
    have hlen : (leads.take (totalAvail teams used)).length
        ≤ ((availCaps teams used).map Prod.snd).sum := by
      rw [List.length_take]
      exact min_le_left _ _
    obtain ⟨ha, hb⟩ := capacityBasedDistribution_spec flt
      (leads.take (totalAvail teams used)) (availCaps teams used) hlen hflt hnd2
    have hred : distributeLeads flt .capacity_based teams used leads
        = capacityBasedDistribution flt (leads.take (totalAvail teams used))
            (availCaps teams used) := by
      simp [distributeLeads, h0]
    constructor
    · rw [hred, ha, List.length_take, Nat.min_comm]
    · intro p hp
      rw [hred] at hp
      exact hb p hp

/-- Witness leads for the distributor theorems. -/
theorem distributeLeads_capacity_conservation_witness :
    ([(("T1" : String), (4 : Nat)), ("T2", 3)].map Prod.fst).Nodup ∧
    ((((distributeLeads pyIntCount .capacity_based [("T1", 4), ("T2", 3)]
          (fun _ => 1)
          [⟨"1"⟩, ⟨"2"⟩, ⟨"3"⟩, ⟨"4"⟩, ⟨"5"⟩, ⟨"6"⟩, ⟨"7"⟩]).map
        (fun p => p.2.length)).sum
      = min ([⟨"1"⟩, ⟨"2"⟩, ⟨"3"⟩, ⟨"4"⟩, ⟨"5"⟩, ⟨"6"⟩, ⟨"7"⟩] : List Lead).length
          (totalAvail [("T1", 4), ("T2", 3)] (fun _ => 1))) ∧
    ∀ p ∈ distributeLeads pyIntCount .capacity_based [("T1", 4), ("T2", 3)]
        (fun _ => 1) [⟨"1"⟩, ⟨"2"⟩, ⟨"3"⟩, ⟨"4"⟩, ⟨"5"⟩, ⟨"6"⟩, ⟨"7"⟩],
      p.2.length ≤ assocGetNat (availCaps [("T1", 4), ("T2", 3)] (fun _ => 1)) p.1) :=
  ⟨by decide,
    distributeLeads_capacity_conservation pyIntCount [("T1", 4), ("T2", 3)]
      (fun _ => 1) [⟨"1"⟩, ⟨"2"⟩, ⟨"3"⟩, ⟨"4"⟩, ⟨"5"⟩, ⟨"6"⟩, ⟨"7"⟩]
      (by decide) pyIntCount_le_cap⟩

/-- Claim C8: if the total remaining capacity summed over all teams is
zero, distribute_leads returns the empty dictionary, so every team
receives the empty sequence of leads (lookup of any team in the returned
mapping yields no leads). -/
theorem distributeLeads_zero_total (flt : CountFun) (strategy : DistributionStrategy)
    (teams : List (String × Nat)) (used : String → Nat) (leads : List Lead)
    (h : totalAvail teams used = 0) :
    distributeLeads flt strategy teams used leads = [] ∧
    ∀ t : String, distGetFirst (distributeLeads flt strategy teams used leads) t = [] := by
  have hr : distributeLeads flt strategy teams used leads = [] := by
    simp [distributeLeads, h]
  exact ⟨hr, fun t => by rw [hr]; rfl⟩

/-- Witness for the zero-capacity theorem: one team with capacity 5 of
which 7 are already used, so its remaining capacity is 0. -/
theorem distributeLeads_zero_total_witness :
    totalAvail [(("team_1" : String), (5 : Nat))] (fun _ => 7) = 0 ∧
    (distributeLeads pyIntCount .capacity_based [("team_1", 5)] (fun _ => 7)
        [⟨"L1"⟩] = [] ∧
      ∀ t : String, distGetFirst (distributeLeads pyIntCount .capacity_based
        [("team_1", 5)] (fun _ => 7) [⟨"L1"⟩]) t = []) :=
  ⟨by decide,
    distributeLeads_zero_total pyIntCount .capacity_based [("team_1", 5)]
      (fun _ => 7) [⟨"L1"⟩] (by decide)⟩

-- ============================================================================
-- Round-robin lemmas
-- ============================================================================

theorem distAppendFirst_bound (caps : List (String × Nat)) (t : String) (l : Lead) :
    ∀ dist : List (String × List Lead),
      (∀ p ∈ dist, p.2.length ≤ assocGetNat caps p.1) →
      (distGetFirst dist t).length < assocGetNat caps t →
      ∀ p ∈ distAppendFirst dist t l, p.2.length ≤ assocGetNat caps p.1 := by
  intro dist
  induction dist with
  | nil =>
    intro _ _ p hp
    simp [distAppendFirst] at hp
  | cons q rest ih =>
    intro hb hlt p hp
    by_cases hq : q.1 = t
    · rw [distAppendFirst, if_pos hq] at hp
      have hget : distGetFirst (q :: rest) t = q.2 := by
        rw [distGetFirst, if_pos hq]
      rcases List.mem_cons.1 hp with rfl | hp2
      · have : q.2.length < assocGetNat caps t := by
          rw [hget] at hlt
          exact hlt
        simp only [List.length_append, List.length_singleton]
        rw [← hq] at this
        omega
      · exact hb p (List.mem_cons_of_mem _ hp2)
    · rw [distAppendFirst, if_neg hq] at hp
      have hget : distGetFirst (q :: rest) t = distGetFirst rest t := by
        rw [distGetFirst, if_neg hq]
      rcases List.mem_cons.1 hp with rfl | hp2
      · exact hb p (List.mem_cons_self _ _)
      · exact ih (fun p2 h2 => hb p2 (List.mem_cons_of_mem _ h2))
          (hget ▸ hlt) p hp2

theorem roundRobinGo_bound (caps : List (String × Nat)) (avail : List String) :
    ∀ (leads : List Lead) (ti : Nat) (dist : List (String × List Lead)),
      (∀ p ∈ dist, p.2.length ≤ assocGetNat caps p.1) →
      ∀ p ∈ roundRobinGo caps avail leads ti dist,
        p.2.length ≤ assocGetNat caps p.1 := by
  intro leads
  induction leads with
  | nil =>
    intro ti dist hb p hp
    exact hb p hp
  | cons l rest ih =>
    intro ti dist hb p hp
    rw [roundRobinGo] at hp
    by_cases hg : (distGetFirst dist (avail.getD (ti % avail.length) (""))).length
        < assocGetNat caps (avail.getD (ti % avail.length) (""))
    · rw [if_pos hg] at hp
      exact ih (ti + 1) _ (distAppendFirst_bound caps _ l dist hb hg) p hp
    · rw [if_neg hg] at hp
      exact ih (ti + 1) dist hb p hp

/-- Claim C6, counterexample: with capacities T1 = 1 and T2 = 5, the
round-robin strategy offers the third lead to the already-full team T1
and drops it, so only 2 of the 3 leads are assigned even though the total
remaining capacity is 6; the claim that every lead (up to total capacity)
is assigned to some team with remaining capacity is therefore false. -/
theorem roundRobin_drops_lead_counterexample :
    (((roundRobinDistribution [⟨"a"⟩, ⟨"b"⟩, ⟨"c"⟩]
        [("T1", 1), ("T2", 5)]).map (fun p => p.2.length)).sum = 2) ∧
    ([⟨"a"⟩, ⟨"b"⟩, ⟨"c"⟩] : List Lead).length = 3 ∧
    (([(("T1" : String), (1 : Nat)), ("T2", 5)].map Prod.snd).sum = 6) ∧
    roundRobinDistribution [⟨"a"⟩, ⟨"b"⟩, ⟨"c"⟩] [("T1", 1), ("T2", 5)]
      = [("T1", [⟨"a"⟩]), ("T2", [⟨"b"⟩])] := by
  refine ⟨?_, ?_, ?_, ?_⟩ <;> decide

/-- Claim C6, amended: the round-robin strategy offers lead number i to
the team at position i mod n among the teams with capacity greater than
0; a lead whose slotted team has already reached its capacity is dropped
rather than reassigned, so not every lead within the total capacity is
assigned.  No team ever exceeds its capacity, a team with zero capacity
receives no leads, and the spec example of 5 leads over capacities
T1 = 10, T2 = 10, T3 = 0 gives T3 nothing while T1 and T2 alternate. -/
theorem roundRobin_behaviour :
    (∀ (leads : List Lead) (caps : List (String × Nat)),
      ∀ p ∈ roundRobinDistribution leads caps,
        p.2.length ≤ assocGetNat caps p.1) ∧
    (∀ (leads : List Lead) (caps : List (String × Nat)),
      ∀ p ∈ roundRobinDistribution leads caps,
        assocGetNat caps p.1 = 0 → p.2 = []) ∧
    roundRobinDistribution [⟨"1"⟩, ⟨"2"⟩, ⟨"3"⟩, ⟨"4"⟩, ⟨"5"⟩]
        [("T1", 10), ("T2", 10), ("T3", 0)]
      = [("T1", [⟨"1"⟩, ⟨"3"⟩, ⟨"5"⟩]), ("T2", [⟨"2"⟩, ⟨"4"⟩]), ("T3", [])] := by
  have hbound : ∀ (leads : List Lead) (caps : List (String × Nat)),
      ∀ p ∈ roundRobinDistribution leads caps,
        p.2.length ≤ assocGetNat caps p.1 := by
    intro leads caps p hp
    have hinit : ∀ q ∈ caps.map (fun c => (c.1, ([] : List Lead))),
        q.2.length ≤ assocGetNat caps q.1 := by
      intro q hq
      obtain ⟨c, _, rfl⟩ := List.mem_map.1 hq
      simp
    rw [roundRobinDistribution] at hp
    by_cases hav : (((caps.filter (fun p => 0 < p.2)).map Prod.fst).isEmpty) = true
    · rw [if_pos hav] at hp
      exact hinit p hp
    · rw [if_neg hav] at hp
      exact roundRobinGo_bound caps _ leads 0 _ hinit p hp
  refine ⟨hbound, ?_, by decide⟩
  intro leads caps p hp hz
  have := hbound leads caps p hp
  rw [hz] at this
  exact List.length_eq_zero.1 (by omega)

/-- Witness for the amended round-robin theorem at a concrete input. -/
theorem roundRobin_behaviour_witness :
    (("T2", [(⟨"2"⟩ : Lead), ⟨"4"⟩]) ∈
        roundRobinDistribution [⟨"1"⟩, ⟨"2"⟩, ⟨"3"⟩, ⟨"4"⟩, ⟨"5"⟩]
          [("T1", 10), ("T2", 10), ("T3", 0)]) ∧
    ([(⟨"2"⟩ : Lead), ⟨"4"⟩].length
      ≤ assocGetNat [("T1", 10), ("T2", 10), ("T3", 0)] ("T2")) :=
  ⟨by decide,
    roundRobin_behaviour.1 [⟨"1"⟩, ⟨"2"⟩, ⟨"3"⟩, ⟨"4"⟩, ⟨"5"⟩]
      [("T1", 10), ("T2", 10), ("T3", 0)] ("T2", [⟨"2"⟩, ⟨"4"⟩]) (by decide)⟩

-- ============================================================================
-- Campaign loop lemmas (C1, C3, C4)
-- ============================================================================

theorem assocGetNat_quotaInc_self (q : List (String × Nat)) (n : String) :
    assocGetNat (quotaInc q n) n = assocGetNat q n + 1 := by
  induction q with
  | nil => simp [quotaInc, assocGetNat]
  | cons p rest ih =>
    by_cases hp : p.1 = n
    · simp [quotaInc, assocGetNat, hp]
    · simp [quotaInc, assocGetNat, hp, ih]

theorem assocGetNat_quotaInc_other (q : List (String × Nat)) (n m : String)
    (h : m ≠ n) :
    assocGetNat (quotaInc q n) m = assocGetNat q m := by
  have hnm : n ≠ m := fun hc => h hc.symm
  induction q with
  | nil =>
    simp [quotaInc, assocGetNat, hnm]
  | cons p rest ih =>
    by_cases hp : p.1 = n
    · have hne : p.1 ≠ m := by
        rw [hp]
        exact hnm
      simp [quotaInc, assocGetNat, hp, hne, hnm]
    · by_cases hm : p.1 = m
      · simp [quotaInc, assocGetNat, hp, hm, hnm, h]
      · simp [quotaInc, assocGetNat, hp, hm, ih]

theorem csInv_inc (G : Nat) (cs : List Counsellor) (s : CampaignState)
    (hnd : (cs.map Counsellor.name).Nodup) (hinv : csInv G cs s)
    (c : Counsellor) (hc1 : c ∈ cs)
    (hc2 : assocGetNat s.quota c.name < c.daily_limit)
    (hG : s.globalUsed < G) (ids : List String) :
    csInv G cs { quota := quotaInc s.quota c.name,
                 globalUsed := s.globalUsed + 1, sentToday := ids } := by
  constructor
  · intro c2 hmem
    by_cases hname : c2.name = c.name
    · have hceq : c2 = c := List.inj_on_of_nodup_map hnd hmem hc1 hname
      subst hceq
      show assocGetNat (quotaInc s.quota c2.name) c2.name ≤ c2.daily_limit
      rw [assocGetNat_quotaInc_self]
      omega
    · show assocGetNat (quotaInc s.quota c.name) c2.name ≤ c2.daily_limit
      rw [assocGetNat_quotaInc_other _ _ _ hname]
      exact hinv.1 c2 hmem
  · show s.globalUsed + 1 ≤ G
    omega

theorem avail_mem_spec (cs : List Counsellor) (q : List (String × Nat))
    (c : Counsellor) (h : c ∈ getAvailableCounsellors cs q) :
    c ∈ cs ∧ assocGetNat q c.name < c.daily_limit := by
  have h2 := List.mem_filter.1 h
  exact ⟨h2.1, by simpa using h2.2⟩

/-- Claim C1: along every execution of the campaign loop, a counsellor
is only offered while its used count is strictly below its daily limit,
a send is only attempted while the global used count is strictly below
the global daily limit, and after every quota increment every
counsellor's used count is at most its limit and the global used count
is at most the global limit (and the final state still satisfies the
same invariant), provided the starting state does. -/
theorem campaign_quota_invariant (G : Nat) (cs : List Counsellor)
    (gateway : Nat → MessageResult) (sel : Nat → Nat) (total : Nat) :
    ∀ (leads : List Lead) (i : Nat) (s : CampaignState),
      (cs.map Counsellor.name).Nodup → csInv G cs s →
      (∀ p ∈ (runLeads G cs gateway sel total leads i s).picks, p.2.1 < p.2.2) ∧
      (∀ a ∈ (runLeads G cs gateway sel total leads i s).attempts, a.2 < G) ∧
      (∀ snap ∈ (runLeads G cs gateway sel total leads i s).snapshots,
        csInv G cs snap) ∧
      csInv G cs (runLeads G cs gateway sel total leads i s).finalState := by
  intro leads
  induction leads with
  | nil =>
    intro i s hnd hinv
    refine ⟨?_, ?_, ?_, hinv⟩ <;> intro x hx <;> simp [runLeads, noEvents] at hx
  | cons lead rest ih =>
    intro i s hnd hinv
    rw [runLeads]
    by_cases hG : G ≤ s.globalUsed
    · rw [if_pos hG]
      refine ⟨?_, ?_, ?_, hinv⟩ <;> intro x hx <;> simp [noEvents] at hx
    · rw [if_neg hG]
      rcases havail : getAvailableCounsellors cs s.quota with _ | ⟨a, as⟩
      · refine ⟨?_, ?_, ?_, hinv⟩ <;> intro x hx <;> simp [noEvents] at hx
      · simp only []
        have hcmem : (a :: as).get
            ⟨sel i % (as.length + 1), Nat.mod_lt _ (Nat.succ_pos _)⟩
              ∈ getAvailableCounsellors cs s.quota := by
          rw [havail]
          exact List.get_mem _ _ _
        obtain ⟨hc1, hc2⟩ := avail_mem_spec cs s.quota _ hcmem
        by_cases hsent : lead.lead_id ∈ s.sentToday
        · rw [if_pos hsent]
          obtain ⟨q1, q2, q3, q4⟩ := ih (i + 1) s hnd hinv
          refine ⟨?_, q2, q3, q4⟩
          intro p hp
          rcases List.mem_cons.1 hp with rfl | hp2
          · exact hc2
          · exact q1 p hp2
        · rw [if_neg hsent]
          have hs2inv : csInv G cs (if (gateway i).success then
              { quota := quotaInc s.quota ((a :: as).get
                  ⟨sel i % (as.length + 1), Nat.mod_lt _ (Nat.succ_pos _)⟩).name,
                globalUsed := s.globalUsed + 1,
                sentToday := s.sentToday ++ [lead.lead_id] }
            else s) := by
            by_cases hres : (gateway i).success
            · rw [if_pos hres]
              exact csInv_inc G cs s hnd hinv _ hc1 hc2 (by omega) _
            · rw [if_neg hres]
              exact hinv
          by_cases hcont : (gateway i).should_continue
          · rw [if_pos hcont]
            obtain ⟨q1, q2, q3, q4⟩ := ih (i + 1) _ hnd hs2inv
            refine ⟨?_, ?_, ?_, q4⟩
            · intro p hp
              rcases List.mem_cons.1 hp with rfl | hp2
              · exact hc2
              · exact q1 p hp2
            · intro p hp
              rcases List.mem_cons.1 hp with rfl | hp2
              · omega
              · exact q2 p hp2
            · intro snap hsnap
              rcases List.mem_append.1 hsnap with hin | hin
              · by_cases hres : (gateway i).success
                · simp only [if_pos hres] at hin
                  have hs2 := hs2inv
                  simp only [if_pos hres] at hs2
                  simp only [List.mem_singleton] at hin
                  rw [hin]
                  exact hs2
                · simp only [if_neg hres] at hin
                  simp at hin
              · exact q3 snap hin
          · rw [if_neg hcont]
            refine ⟨?_, ?_, ?_, hs2inv⟩
            · intro p hp
              rcases List.mem_singleton.1 hp with rfl
              exact hc2
            · intro p hp
              rcases List.mem_singleton.1 hp with rfl
              omega
            · intro snap hsnap
              by_cases hres : (gateway i).success
              · simp only [if_pos hres] at hsnap
                have hs2 := hs2inv
                simp only [if_pos hres] at hs2
                simp only [List.mem_singleton] at hsnap
                rw [hsnap]
                exact hs2
              · simp only [if_neg hres] at hsnap
                simp at hsnap

/-- Witness for the quota-invariant theorem: the spec scenario of
counsellors A (capacity 2) and B (capacity 1), global limit 3 and 4
leads, starting from fresh counters. -/
theorem campaign_quota_invariant_witness :
    ((([⟨("A"), 2⟩, ⟨("B"), 1⟩] : List Counsellor).map Counsellor.name).Nodup ∧
      csInv 3 [⟨("A"), 2⟩, ⟨("B"), 1⟩] ⟨[], 0, []⟩) ∧
    ((∀ p ∈ (runLeads 3 [⟨("A"), 2⟩, ⟨("B"), 1⟩] demoOkGateway (fun _ => 0) 4
        [⟨"L1"⟩, ⟨"L2"⟩, ⟨"L3"⟩, ⟨"L4"⟩] 1 ⟨[], 0, []⟩).picks, p.2.1 < p.2.2) ∧
      (∀ a ∈ (runLeads 3 [⟨("A"), 2⟩, ⟨("B"), 1⟩] demoOkGateway (fun _ => 0) 4
        [⟨"L1"⟩, ⟨"L2"⟩, ⟨"L3"⟩, ⟨"L4"⟩] 1 ⟨[], 0, []⟩).attempts, a.2 < 3) ∧
      (∀ snap ∈ (runLeads 3 [⟨("A"), 2⟩, ⟨("B"), 1⟩] demoOkGateway (fun _ => 0) 4
        [⟨"L1"⟩, ⟨"L2"⟩, ⟨"L3"⟩, ⟨"L4"⟩] 1 ⟨[], 0, []⟩).snapshots,
          csInv 3 [⟨("A"), 2⟩, ⟨("B"), 1⟩] snap) ∧
      csInv 3 [⟨("A"), 2⟩, ⟨("B"), 1⟩]
        (runLeads 3 [⟨("A"), 2⟩, ⟨("B"), 1⟩] demoOkGateway (fun _ => 0) 4
          [⟨"L1"⟩, ⟨"L2"⟩, ⟨"L3"⟩, ⟨"L4"⟩] 1 ⟨[], 0, []⟩).finalState) :=
  ⟨⟨by decide, by decide⟩,
    campaign_quota_invariant 3 [⟨("A"), 2⟩, ⟨("B"), 1⟩] demoOkGateway (fun _ => 0) 4
      [⟨"L1"⟩, ⟨"L2"⟩, ⟨"L3"⟩, ⟨"L4"⟩] 1 ⟨[], 0, []⟩ (by decide) (by decide)⟩

/-- Claim C4: whenever the global used count has reached the global
daily limit at the top of a loop iteration, the loop stops at once: no
counsellor is picked, no send is attempted, nothing is processed, no
delay runs and the state is unchanged, regardless of the remaining
leads and of any individual remaining capacity. -/
theorem global_quota_stops_loop (G : Nat) (cs : List Counsellor)
    (gateway : Nat → MessageResult) (sel : Nat → Nat) (total : Nat)
    (lead : Lead) (rest : List Lead) (i : Nat) (s : CampaignState)
    (h : G ≤ s.globalUsed) :
    (runLeads G cs gateway sel total (lead :: rest) i s).picks = [] ∧
    (runLeads G cs gateway sel total (lead :: rest) i s).attempts = [] ∧
    (runLeads G cs gateway sel total (lead :: rest) i s).processed = 0 ∧
    (runLeads G cs gateway sel total (lead :: rest) i s).delays = [] ∧
    (runLeads G cs gateway sel total (lead :: rest) i s).finalState = s := by
  rw [runLeads, if_pos h]
  exact ⟨rfl, rfl, rfl, rfl, rfl⟩

/-- Witness for the global-quota stop: global limit 5 already consumed,
a counsellor with spare individual capacity, and a pending lead. -/
theorem global_quota_stops_loop_witness :
    5 ≤ (⟨[(("A" : String), 3)], 5, []⟩ : CampaignState).globalUsed ∧
    ((runLeads 5 [⟨("A"), 100⟩] demoOkGateway (fun _ => 0) 1 [⟨"L1"⟩] 1
        ⟨[("A", 3)], 5, []⟩).picks = [] ∧
      (runLeads 5 [⟨("A"), 100⟩] demoOkGateway (fun _ => 0) 1 [⟨"L1"⟩] 1
        ⟨[("A", 3)], 5, []⟩).attempts = [] ∧
      (runLeads 5 [⟨("A"), 100⟩] demoOkGateway (fun _ => 0) 1 [⟨"L1"⟩] 1
        ⟨[("A", 3)], 5, []⟩).processed = 0 ∧
      (runLeads 5 [⟨("A"), 100⟩] demoOkGateway (fun _ => 0) 1 [⟨"L1"⟩] 1
        ⟨[("A", 3)], 5, []⟩).delays = [] ∧
      (runLeads 5 [⟨("A"), 100⟩] demoOkGateway (fun _ => 0) 1 [⟨"L1"⟩] 1
        ⟨[("A", 3)], 5, []⟩).finalState = ⟨[("A", 3)], 5, []⟩) :=
  ⟨by decide,
    global_quota_stops_loop 5 [⟨("A"), 100⟩] demoOkGateway (fun _ => 0) 1
      ⟨"L1"⟩ [] 1 ⟨[("A", 3)], 5, []⟩ (by decide)⟩

/-- Claim C3: when the gateway returns should_continue true for the
first two leads and false for the third, the loop over a batch of 10
leads attempts exactly leads 1, 2 and 3, counts exactly 2 leads as
processed, picks a counsellor exactly 3 times and runs the delay exactly
after leads 1 and 2; the remaining 7 leads get no pick, no attempt and
no delay. -/
theorem circuit_breaker_exact_halt (gateway : Nat → MessageResult)
    (sel : Nat → Nat)
    (h1 : (gateway 1).should_continue = true)
    (h2 : (gateway 2).should_continue = true)
    (h3 : (gateway 3).should_continue = false) :
    (runLeads 100 [⟨("A"), 100⟩] gateway sel 10 demoLeads10 1
        ⟨[], 0, []⟩).processed = 2 ∧
    (runLeads 100 [⟨("A"), 100⟩] gateway sel 10 demoLeads10 1
        ⟨[], 0, []⟩).attempts.map Prod.fst = [1, 2, 3] ∧
    (runLeads 100 [⟨("A"), 100⟩] gateway sel 10 demoLeads10 1
        ⟨[], 0, []⟩).picks.length = 3 ∧
    (runLeads 100 [⟨("A"), 100⟩] gateway sel 10 demoLeads10 1
        ⟨[], 0, []⟩).delays = [1, 2] := by
  by_cases hs1 : (gateway 1).success <;> by_cases hs2 : (gateway 2).success <;>
    simp [demoLeads10, runLeads, getAvailableCounsellors, assocGetNat, quotaInc,
      noEvents, Nat.mod_one, h1, h2, h3, hs1, hs2]

/-- Witness for the circuit-breaker theorem with a concrete scripted
gateway that fails systemically on the third lead. -/
theorem circuit_breaker_exact_halt_witness :
    ((demoBreakerGateway 1).should_continue = true ∧
      (demoBreakerGateway 2).should_continue = true ∧
      (demoBreakerGateway 3).should_continue = false) ∧
    ((runLeads 100 [⟨("A"), 100⟩] demoBreakerGateway (fun _ => 0) 10 demoLeads10 1
        ⟨[], 0, []⟩).processed = 2 ∧
      (runLeads 100 [⟨("A"), 100⟩] demoBreakerGateway (fun _ => 0) 10 demoLeads10 1
        ⟨[], 0, []⟩).attempts.map Prod.fst = [1, 2, 3] ∧
      (runLeads 100 [⟨("A"), 100⟩] demoBreakerGateway (fun _ => 0) 10 demoLeads10 1
        ⟨[], 0, []⟩).picks.length = 3 ∧
      (runLeads 100 [⟨("A"), 100⟩] demoBreakerGateway (fun _ => 0) 10 demoLeads10 1
        ⟨[], 0, []⟩).delays = [1, 2]) :=
  ⟨⟨by decide, by decide, by decide⟩,
    circuit_breaker_exact_halt demoBreakerGateway (fun _ => 0)
      (by decide) (by decide) (by decide)⟩

/-- Claim C2, evaluation at the failing input: the multi-team secured
pipeline, invoked twice on the same calendar day with the same
single-lead batch and an always-successful gateway, performs two
successful sends for the same lead id L1, because
_process_single_lead_for_team_secured neither consults nor updates any
persisted sent-set. -/
theorem multi_team_double_send :
    processTeamLeadsTwice demoTeam demoOkGateway (fun _ => 0) [⟨"L1"⟩] ⟨0, []⟩
      = [("L1"), ("L1")] ∧
    (processTeamLeadsTwice demoTeam demoOkGateway (fun _ => 0) [⟨"L1"⟩]
        ⟨0, []⟩).count ("L1") = 2 := by
  constructor <;> decide

-- ============================================================================
-- Retention lemmas
-- ============================================================================

theorem assocSetDay_shift (c d : Int) (v : Nat) :
    ∀ t : List (Int × Nat),
      assocSetDay (shiftTable c t) (d + c) v = shiftTable c (assocSetDay t d v) := by
  intro t
  induction t with
  | nil =>
    simp [assocSetDay, shiftTable]
  | cons p rest ih =>
    by_cases hp : p.1 = d
    · simp [assocSetDay, shiftTable, hp]
    · have hne : ¬p.1 + c = d + c := by omega
      simp only [shiftTable, List.map_cons, assocSetDay, if_neg hp, if_neg hne,
        List.cons.injEq, true_and]
      simpa [shiftTable] using ih

theorem filter_cutoff_shift (c d : Int) :
    ∀ u : List (Int × Nat),
      (shiftTable c u).filter (fun p => d + c - 7 ≤ p.1)
        = shiftTable c (u.filter (fun p => d - 7 ≤ p.1)) := by
  intro u
  induction u with
  | nil => rfl
  | cons p rest ih =>
    by_cases hp : d - 7 ≤ p.1
    · have hp2 : d + c - 7 ≤ p.1 + c := by omega
      simp only [shiftTable, List.map_cons, List.filter_cons, hp, hp2,
        decide_true_eq_true, decide_True, if_pos, List.cons.injEq, true_and] at ih ⊢
      simp [hp, hp2]
      simpa [shiftTable] using ih
    · have hp2 : ¬d + c - 7 ≤ p.1 + c := by omega
      simp only [shiftTable, List.map_cons, List.filter_cons] at ih ⊢
      simp [hp, hp2]
      simpa [shiftTable] using ih

theorem saveDailyQuota_shift (c d : Int) (v : Nat) (t : List (Int × Nat)) :
    saveDailyQuota (shiftTable c t) (d + c) v = shiftTable c (saveDailyQuota t d v) := by
  rw [saveDailyQuota, saveDailyQuota, assocSetDay_shift, filter_cutoff_shift]

theorem saveOnDays_shift (c : Int) :
    ∀ (days : List Int) (t : List (Int × Nat)),
      saveOnDays (shiftTable c t) (days.map (fun d => d + c))
        = shiftTable c (saveOnDays t days) := by
  intro days
  induction days with
  | nil => intro t; rfl
  | cons d rest ih =>
    intro t
    show saveOnDays (saveDailyQuota (shiftTable c t) (d + c) 0) (rest.map (fun d => d + c))
        = shiftTable c (saveOnDays (saveDailyQuota t d 0) rest)
    rw [saveDailyQuota_shift]
    exact ih (saveDailyQuota t d 0)

/-- Claim C7, counterexample: writing a quota record on each of the 10
consecutive days 0..9 leaves a table with 8 entries (days 2..9), not 7:
the filter keeps every key at least today minus 7, which is an 8-day
window (today plus the 7 preceding days). -/
theorem retention_counterexample :
    (saveOnDays [] [(0 : Int), 1, 2, 3, 4, 5, 6, 7, 8, 9]).map Prod.fst
        = [2, 3, 4, 5, 6, 7, 8, 9] ∧
    (saveOnDays [] [(0 : Int), 1, 2, 3, 4, 5, 6, 7, 8, 9]).length = 8 ∧
    ¬(saveOnDays [] [(0 : Int), 1, 2, 3, 4, 5, 6, 7, 8, 9]).length = 7 := by
  refine ⟨?_, ?_, ?_⟩ <;> decide

/-- Claim C7, amended: after writing quota records on 10 consecutive
distinct calendar days the persisted day-keyed quota table contains
exactly 8 entries, namely the 8 most recent days: every save rewrites
the whole table keeping only the keys at least today minus 7, that is
today plus the 7 preceding days, dropping older entries. -/
theorem retention_keeps_eight_days (d0 : Int) :
    (saveOnDays [] [d0, d0 + 1, d0 + 2, d0 + 3, d0 + 4, d0 + 5, d0 + 6, d0 + 7,
        d0 + 8, d0 + 9]).map Prod.fst
      = [d0 + 2, d0 + 3, d0 + 4, d0 + 5, d0 + 6, d0 + 7, d0 + 8, d0 + 9] ∧
    (saveOnDays [] [d0, d0 + 1, d0 + 2, d0 + 3, d0 + 4, d0 + 5, d0 + 6, d0 + 7,
        d0 + 8, d0 + 9]).length = 8 := by
  have hdays : [d0, d0 + 1, d0 + 2, d0 + 3, d0 + 4, d0 + 5, d0 + 6, d0 + 7,
        d0 + 8, d0 + 9]
      = ([0, 1, 2, 3, 4, 5, 6, 7, 8, 9] : List Int).map (fun d => d + d0) := by
    simp only [List.map_cons, List.map_nil, List.cons.injEq, and_true]
    omega
  have hconc : saveOnDays ([] : List (Int × Nat)) [0, 1, 2, 3, 4, 5, 6, 7, 8, 9]
      = [(2, 0), (3, 0), (4, 0), (5, 0), (6, 0), (7, 0), (8, 0), (9, 0)] := by
    decide
  have hshift := saveOnDays_shift d0 [0, 1, 2, 3, 4, 5, 6, 7, 8, 9] []
  rw [show shiftTable d0 [] = [] from rfl, hconc] at hshift
  rw [hdays, hshift]
  constructor
  · simp only [shiftTable, List.map_cons, List.map_nil, List.cons.injEq, and_true]
    omega
  · rfl

end LeadAuto
